import Mathlib

/-!
# zhonghuan: SM2 adapter over the ZhongHuan device library

A shallow embedding of `src/zhonghuan/zhonghuan.go`.

* Byte slices (`[]byte`) are `List Byte` with `Byte = Fin 256`.
* `*big.Int` values are `Int`; `SetBytes` and `Bytes` follow `math/big`:
  `SetBytes` reads an unsigned big-endian integer, `Bytes` writes the absolute
  value as a big-endian slice without leading zero bytes.
* Go `int` is a 64-bit two's-complement integer: an `Int` wrapped by `wrapInt64`.
* A Go result `(value, error)` is a pair whose second component is `Option String`
  (`none` is the `nil` error); a pointer result is an `Option` (`none` is `nil`).
* The device library (`XSign.h`) is a parameter: a record of primitives acting on
  an abstract device state. Every primitive call is appended to a call trace.
* A run-time panic (index out of range on `&s[0]`, `make` with a negative length)
  is the outcome `Outcome.panic`; deferred calls still run.
-/

namespace Zhonghuan

/-! ## Data model -/

/-- One byte of a Go `[]byte`. -/
abbrev Byte := Fin 256

/-- Constant `PubKeyLen = 64`. -/
def PubKeyLen : Nat := 64

/-- Constant `SignatureLen = 256`. -/
def SignatureLen : Nat := 256

/-- Constant `LenCipherMoreThanPlain = 97`. -/
def LenCipherMoreThanPlain : Int := 97

/-- The `elliptic.Curve` a public key is bound to: the curve returned by
`sm2.P256Sm2()`, or some other curve implementation. -/
inductive Curve where
  | P256Sm2
  | other (id : Nat)
  deriving DecidableEq, Repr

/-- The struct `sm2.PublicKey` with fields `Curve`, `X`, `Y`. -/
structure PublicKey where
  Curve : Curve
  X : Int
  Y : Int
  deriving DecidableEq, Repr

/-! ## math/big conversions -/

/-- Go `new(big.Int).SetBytes(buf)`: the unsigned big-endian value of `buf`. -/
def SetBytes (buf : List Byte) : Nat :=
  buf.foldl (fun acc b => acc * 256 + b.val) 0

/-- Big-endian base-256 digits of `n`, most significant first, without leading
zeros; `fuel` bounds the number of digits produced. -/
def natBytes : Nat → Nat → List Byte
  | 0, _ => []
  | fuel + 1, n =>
    if n = 0 then [] else natBytes fuel (n / 256) ++ [⟨n % 256, Nat.mod_lt n (by decide)⟩]

/-- Go `x.Bytes()`: the absolute value of `x` as a big-endian byte slice. -/
def Bytes (x : Int) : List Byte :=
  natBytes x.natAbs x.natAbs

/-- Positional big-endian value of a byte string: the byte at index `i` of a string
of length `n` weighs `256 ^ (n - 1 - i)`. -/
def beValue : List Byte → Nat
  | [] => 0
  | b :: bs => b.val * 256 ^ bs.length + beValue bs

/-! ## Key codec -/

/-- Go `zhPublicKeyFromSM2`: `append(sm2Key.X.Bytes(), sm2Key.Y.Bytes()...)`. -/
def zhPublicKeyFromSM2 (sm2Key : PublicKey) : List Byte :=
  Bytes sm2Key.X ++ Bytes sm2Key.Y

/-- The error of `sm2PublicKeyFromZH` for an input of the wrong length:
`fmt.Sprintf("public key length must be %d, actual: %d", PubKeyLen, len(zhPubKey))`. -/
def errKeyLength (actual : Nat) : String :=
  "public key length must be " ++ toString PubKeyLen ++ ", actual: " ++ toString actual

/-- The error of `sm2PublicKeyFromZH` when re-encoding does not give the input back. -/
def errTransform : String := "sm2 public key transform may be wrong."

/-- Go `sm2PublicKeyFromZH`: length check, split into two halves read as big-endian
integers, then the re-encoding comparison (`bytes.Compare(...) != 0`). -/
def sm2PublicKeyFromZH (zhPubKey : List Byte) : Option PublicKey × Option String :=
  if zhPubKey.length ≠ PubKeyLen then
    (none, some (errKeyLength zhPubKey.length))
  else
    let sm2PubKey : PublicKey :=
      { Curve := Curve.P256Sm2
        X := (SetBytes (zhPubKey.take (PubKeyLen / 2)) : Nat)
        Y := (SetBytes (zhPubKey.drop (PubKeyLen / 2)) : Nat) }
    if zhPublicKeyFromSM2 sm2PubKey ≠ zhPubKey then
      (none, some errTransform)
    else
      (some sm2PubKey, none)

/-! ## Length framer -/

/-- Two's-complement wrap of an integer into the range of a 64-bit Go `int`. -/
def wrapInt64 (z : Int) : Int :=
  (z + 2 ^ 63) % 2 ^ 64 - 2 ^ 63

/-- Go `cipherTextLenFromPlain`: `plainTextLen + LenCipherMoreThanPlain`. -/
def cipherTextLenFromPlain (plainTextLen : Int) : Int :=
  wrapInt64 (plainTextLen + LenCipherMoreThanPlain)

/-- Go `plainTextLenFromCipher`: `cipherTextLen - LenCipherMoreThanPlain`. -/
def plainTextLenFromCipher (cipherTextLen : Int) : Int :=
  wrapInt64 (cipherTextLen - LenCipherMoreThanPlain)

/-! ## Device library -/

/-- An `unsafe.Pointer` session handle; `0` is `nil`. -/
abbrev Handle := Nat

/-- Result codes of `XDef.h` that the adapter compares against. -/
structure XDef where
  ERR_SUCCESS : Nat
  ERR_VERIFY_FAILED : Nat

/-- One call of a device primitive, with the arguments the adapter passes. -/
inductive Call where
  | X_Initialize (config : String)
  | X_Finalize (handle : Handle)
  | X_GetVersion
  | X_GenKey (handle : Handle) (userLabel userPin : String)
  | X_DelKey (handle : Handle) (userLabel : String)
  | X_GetPublicKey (handle : Handle) (userLabel : String)
  | X_Sign (handle : Handle) (userLabel userPin : String) (message : List Byte) (messageLen : Nat)
  | X_Verify (message : List Byte) (messageLen : Nat) (publicKey : List Byte) (publicKeyLen : Nat)
      (signature : List Byte) (signatureLen : Nat)
  | X_AsymmEncrypt (publicKey : List Byte) (publicKeyLen : Nat) (plainText : List Byte)
      (plainTextLen : Nat) (cipherTextLen : Nat)
  | X_AsymmDecrypt (handle : Handle) (userLabel userPin : String) (cipherText : List Byte)
      (cipherTextLen : Nat) (plainTextLen : Nat)
  deriving DecidableEq, Repr

/-- The device library as a record of primitives over a device state `σ`. Each
primitive returns its `uint32` result code first; an output buffer is returned as
the bytes the primitive wrote (for key and signature outputs: the bytes that
`C.GoBytes` copies out afterwards). -/
structure Device (σ : Type) where
  X_Initialize : String → σ → (Nat × Handle) × σ
  X_Finalize : Handle → σ → σ
  X_GetVersion : σ → (Nat × Nat) × σ
  X_GenKey : Handle → String → String → σ → (Nat × List Byte) × σ
  X_DelKey : Handle → String → σ → Nat × σ
  X_GetPublicKey : Handle → String → σ → (Nat × List Byte) × σ
  X_Sign : Handle → String → String → List Byte → Nat → σ → (Nat × List Byte) × σ
  X_Verify : List Byte → Nat → List Byte → Nat → List Byte → Nat → σ → Nat × σ
  X_AsymmEncrypt : List Byte → Nat → List Byte → Nat → Nat → σ → (Nat × List Byte) × σ
  X_AsymmDecrypt : Handle → String → String → List Byte → Nat → Nat → σ → (Nat × List Byte) × σ

/-- Device state together with the trace of primitive calls made so far. -/
structure World (σ : Type) where
  dev : σ
  trace : List Call

/-- How a Go function call ends: it returns `v`, or it panics. -/
inductive Outcome (α : Type) where
  | ret (v : α)
  | panic
  deriving DecidableEq, Repr

/-- Go `len(s)` as an `int`; a Go slice has fewer than `2 ^ 63` elements. -/
def len (s : List Byte) : Int := (s.length : Int)

/-- The conversion `C.UINT32(n)` of a Go `int`. -/
def toUint32 (n : Int) : Nat := (n % 2 ^ 32).toNat

/-- A zeroed buffer of `n` bytes (`make([]byte, n)`) after a primitive wrote `out`
at its start. -/
def fillBuffer (n : Nat) (out : List Byte) : List Byte :=
  (out ++ List.replicate n 0).take n

/-- Go `defer f()`: `f` runs when the body is left, by return or by panic. -/
def deferred {σ α : Type} (f : World σ → World σ) (body : World σ → Outcome α × World σ)
    (w : World σ) : Outcome α × World σ :=
  let r := body w
  (r.1, f r.2)

/-! ## Session manager -/

/-- Go `initialize`: calls `X_Initialize`; a code other than `ERR_SUCCESS` gives
`(nil, errors.New("X_Initialize Error"))`. -/
def initSession {σ : Type} (x : XDef) (d : Device σ) (config : String) (w : World σ) :
    (Handle × Option String) × World σ :=
  let r := d.X_Initialize config w.dev
  let w1 : World σ := { dev := r.2, trace := w.trace ++ [Call.X_Initialize config] }
  if r.1.1 ≠ x.ERR_SUCCESS then ((0, some "X_Initialize Error"), w1)
  else ((r.1.2, none), w1)

/-- Go `finalize`: calls `X_Finalize(handle)`. -/
def finalize {σ : Type} (d : Device σ) (handle : Handle) (w : World σ) : World σ :=
  { dev := d.X_Finalize handle w.dev, trace := w.trace ++ [Call.X_Finalize handle] }

/-! ## Operation facade -/

/-- Go `GetVersion`: no session; calls `X_GetVersion`. -/
def GetVersion {σ : Type} (x : XDef) (d : Device σ) (w : World σ) :
    Outcome (Nat × Option String) × World σ :=
  let r := d.X_GetVersion w.dev
  let w1 : World σ := { dev := r.2, trace := w.trace ++ [Call.X_GetVersion] }
  if r.1.1 ≠ x.ERR_SUCCESS then (Outcome.ret (0, some "X_GetVersion Error"), w1)
  else (Outcome.ret (r.1.2 % 2 ^ 32, none), w1)

/-- Go `GenerateKey`: session, `X_GenKey`, then the key codec on the output. -/
def GenerateKey {σ : Type} (x : XDef) (d : Device σ) (config userLabel userPin : String)
    (w : World σ) : Outcome (Option PublicKey × Option String) × World σ :=
  let i := initSession x d config w
  match i.1.2 with
  | some err => (Outcome.ret (none, some err), i.2)
  | none =>
    deferred (finalize d i.1.1) (fun w1 =>
      let r := d.X_GenKey i.1.1 userLabel userPin w1.dev
      let w2 : World σ :=
        { dev := r.2, trace := w1.trace ++ [Call.X_GenKey i.1.1 userLabel userPin] }
      if r.1.1 ≠ x.ERR_SUCCESS then (Outcome.ret (none, some "X_GenKey Error"), w2)
      else (Outcome.ret (sm2PublicKeyFromZH r.1.2), w2)) i.2

/-- Go `DeleteKey`: session, `X_DelKey`. -/
def DeleteKey {σ : Type} (x : XDef) (d : Device σ) (config userLabel : String)
    (w : World σ) : Outcome (Option String) × World σ :=
  let i := initSession x d config w
  match i.1.2 with
  | some err => (Outcome.ret (some err), i.2)
  | none =>
    deferred (finalize d i.1.1) (fun w1 =>
      let r := d.X_DelKey i.1.1 userLabel w1.dev
      let w2 : World σ := { dev := r.2, trace := w1.trace ++ [Call.X_DelKey i.1.1 userLabel] }
      if r.1 ≠ x.ERR_SUCCESS then (Outcome.ret (some "X_DelKey Error"), w2)
      else (Outcome.ret none, w2)) i.2

/-- Go `GetPublicKey`: session, `X_GetPublicKey`, then the key codec on the output. -/
def GetPublicKey {σ : Type} (x : XDef) (d : Device σ) (config userLabel : String)
    (w : World σ) : Outcome (Option PublicKey × Option String) × World σ :=
  let i := initSession x d config w
  match i.1.2 with
  | some err => (Outcome.ret (none, some err), i.2)
  | none =>
    deferred (finalize d i.1.1) (fun w1 =>
      let r := d.X_GetPublicKey i.1.1 userLabel w1.dev
      let w2 : World σ :=
        { dev := r.2, trace := w1.trace ++ [Call.X_GetPublicKey i.1.1 userLabel] }
      if r.1.1 ≠ x.ERR_SUCCESS then (Outcome.ret (none, some "X_GetPublicKey Error"), w2)
      else (Outcome.ret (sm2PublicKeyFromZH r.1.2), w2)) i.2

/-- Go `Sign`; `&message[0]` panics on an empty message. -/
def Sign {σ : Type} (x : XDef) (d : Device σ) (config userLabel userPin : String)
    (message : List Byte) (w : World σ) :
    Outcome (Option (List Byte) × Option String) × World σ :=
  let i := initSession x d config w
  match i.1.2 with
  | some err => (Outcome.ret (none, some err), i.2)
  | none =>
    deferred (finalize d i.1.1) (fun w1 =>
      if message = [] then (Outcome.panic, w1)
      else
        let r := d.X_Sign i.1.1 userLabel userPin message (toUint32 (len message)) w1.dev
        let w2 : World σ :=
          { dev := r.2
            trace := w1.trace ++
              [Call.X_Sign i.1.1 userLabel userPin message (toUint32 (len message))] }
        if r.1.1 ≠ x.ERR_SUCCESS then (Outcome.ret (none, some "X_Sign Error"), w2)
        else (Outcome.ret (some r.1.2, none), w2)) i.2

/-- Go `Verify`; `&message[0]`, `&cPublicKey[0]` and `&signature[0]` panic on an empty
slice. -/
def Verify {σ : Type} (x : XDef) (d : Device σ) (config : String)
    (message signature : List Byte) (publicKey : PublicKey) (w : World σ) :
    Outcome (Bool × Option String) × World σ :=
  let i := initSession x d config w
  match i.1.2 with
  | some err => (Outcome.ret (false, some err), i.2)
  | none =>
    deferred (finalize d i.1.1) (fun w1 =>
      let cPublicKey := zhPublicKeyFromSM2 publicKey
      if message = [] then (Outcome.panic, w1)
      else if cPublicKey = [] then (Outcome.panic, w1)
      else if signature = [] then (Outcome.panic, w1)
      else
        let r := d.X_Verify message (toUint32 (len message)) cPublicKey
          (toUint32 (len cPublicKey)) signature (toUint32 (len signature)) w1.dev
        let w2 : World σ :=
          { dev := r.2
            trace := w1.trace ++
              [Call.X_Verify message (toUint32 (len message)) cPublicKey
                (toUint32 (len cPublicKey)) signature (toUint32 (len signature))] }
        if r.1 = x.ERR_VERIFY_FAILED then (Outcome.ret (false, none), w2)
        else if r.1 ≠ x.ERR_SUCCESS then (Outcome.ret (false, some "X_Verify Error"), w2)
        else (Outcome.ret (true, none), w2)) i.2

/-- Go `AsymmetricEncrypt`; `make` panics on a negative length, `&cPublicKey[0]`,
`&plainText[0]` and `&cipherText[0]` panic on an empty slice. -/
def AsymmetricEncrypt {σ : Type} (x : XDef) (d : Device σ) (config : String)
    (plainText : List Byte) (publicKey : PublicKey) (w : World σ) :
    Outcome (Option (List Byte) × Option String) × World σ :=
  let i := initSession x d config w
  match i.1.2 with
  | some err => (Outcome.ret (none, some err), i.2)
  | none =>
    deferred (finalize d i.1.1) (fun w1 =>
      let cPublicKey := zhPublicKeyFromSM2 publicKey
      let cipherTextLen := cipherTextLenFromPlain (len plainText)
      let cCipherTextLen := toUint32 cipherTextLen
      if cipherTextLen < 0 then (Outcome.panic, w1)
      else if cPublicKey = [] then (Outcome.panic, w1)
      else if plainText = [] then (Outcome.panic, w1)
      else if cipherTextLen = 0 then (Outcome.panic, w1)
      else
        let r := d.X_AsymmEncrypt cPublicKey (toUint32 (len cPublicKey)) plainText
          (toUint32 (len plainText)) cCipherTextLen w1.dev
        let w2 : World σ :=
          { dev := r.2
            trace := w1.trace ++
              [Call.X_AsymmEncrypt cPublicKey (toUint32 (len cPublicKey)) plainText
                (toUint32 (len plainText)) cCipherTextLen] }
        if r.1.1 ≠ x.ERR_SUCCESS then (Outcome.ret (none, some "X_AsymmEncrypt Error"), w2)
        else (Outcome.ret (some (fillBuffer cipherTextLen.toNat r.1.2), none), w2)) i.2

/-- Go `AsymmetricDecrypt`; `make` panics on a negative length, `&cipherText[0]` and
`&plainText[0]` panic on an empty slice. -/
def AsymmetricDecrypt {σ : Type} (x : XDef) (d : Device σ)
    (config userLabel userPin : String) (cipherText : List Byte) (w : World σ) :
    Outcome (Option (List Byte) × Option String) × World σ :=
  let i := initSession x d config w
  match i.1.2 with
  | some err => (Outcome.ret (none, some err), i.2)
  | none =>
    deferred (finalize d i.1.1) (fun w1 =>
      let palinTextLen := plainTextLenFromCipher (len cipherText)
      let cPlainTextLen := toUint32 palinTextLen
      if palinTextLen < 0 then (Outcome.panic, w1)
      else if cipherText = [] then (Outcome.panic, w1)
      else if palinTextLen = 0 then (Outcome.panic, w1)
      else
        let r := d.X_AsymmDecrypt i.1.1 userLabel userPin cipherText
          (toUint32 (len cipherText)) cPlainTextLen w1.dev
        let w2 : World σ :=
          { dev := r.2
            trace := w1.trace ++
              [Call.X_AsymmDecrypt i.1.1 userLabel userPin cipherText
                (toUint32 (len cipherText)) cPlainTextLen] }
        if r.1.1 ≠ x.ERR_SUCCESS then (Outcome.ret (none, some "X_AsymmDecrypt Error"), w2)
        else (Outcome.ret (some (fillBuffer palinTextLen.toNat r.1.2), none), w2)) i.2

/-! ## Runs: the session a run opens -/

/-- Result code of the `X_Initialize` call a run starting in `w` makes. -/
def sessionCode {σ : Type} (d : Device σ) (config : String) (w : World σ) : Nat :=
  (d.X_Initialize config w.dev).1.1

/-- Handle written by the `X_Initialize` call a run starting in `w` makes. -/
def sessionHandle {σ : Type} (d : Device σ) (config : String) (w : World σ) : Handle :=
  (d.X_Initialize config w.dev).1.2

/-- Device state left by the `X_Initialize` call a run starting in `w` makes. -/
def sessionDev {σ : Type} (d : Device σ) (config : String) (w : World σ) : σ :=
  (d.X_Initialize config w.dev).2

/-- Session pairing of one run that started in `w`. When `X_Initialize` does not
return `ERR_SUCCESS`, the run adds that single call to the trace and returns
`initFailure`. When it returns `ERR_SUCCESS` with handle `h`, a run that returns adds
`X_Initialize`, the primitive `prim h`, `X_Finalize h`, in this order, and a run
that panics adds `X_Initialize`, `X_Finalize h`. -/
def SessionPaired {σ α : Type} (x : XDef) (d : Device σ) (config : String) (w : World σ)
    (prim : Handle → Call) (initFailure : α) (run : Outcome α × World σ) : Prop :=
  (sessionCode d config w ≠ x.ERR_SUCCESS →
    run.2.trace = w.trace ++ [Call.X_Initialize config] ∧
      run.1 = Outcome.ret initFailure) ∧
  (sessionCode d config w = x.ERR_SUCCESS →
    (run.1 ≠ Outcome.panic →
      run.2.trace = w.trace ++
        [Call.X_Initialize config, prim (sessionHandle d config w),
          Call.X_Finalize (sessionHandle d config w)]) ∧
    (run.1 = Outcome.panic →
      run.2.trace = w.trace ++
        [Call.X_Initialize config, Call.X_Finalize (sessionHandle d config w)]))

/-- Result code of the `X_Verify` call made by `Verify` once the session is open. -/
def verifyCode {σ : Type} (d : Device σ) (config : String) (message signature : List Byte)
    (publicKey : PublicKey) (w : World σ) : Nat :=
  (d.X_Verify message (toUint32 (len message)) (zhPublicKeyFromSM2 publicKey)
    (toUint32 (len (zhPublicKeyFromSM2 publicKey))) signature (toUint32 (len signature))
    (sessionDev d config w)).1

/-- Result code of the `X_GenKey` call made by `GenerateKey` once the session is open. -/
def genKeyCode {σ : Type} (d : Device σ) (config userLabel userPin : String)
    (w : World σ) : Nat :=
  (d.X_GenKey (sessionHandle d config w) userLabel userPin (sessionDev d config w)).1.1

/-- Result code of the `X_DelKey` call made by `DeleteKey` once the session is open. -/
def delKeyCode {σ : Type} (d : Device σ) (config userLabel : String) (w : World σ) : Nat :=
  (d.X_DelKey (sessionHandle d config w) userLabel (sessionDev d config w)).1

/-- Result code of the `X_GetPublicKey` call made by `GetPublicKey` once the session
is open. -/
def getPublicKeyCode {σ : Type} (d : Device σ) (config userLabel : String)
    (w : World σ) : Nat :=
  (d.X_GetPublicKey (sessionHandle d config w) userLabel (sessionDev d config w)).1.1

/-- Result code of the `X_Sign` call made by `Sign` once the session is open. -/
def signCode {σ : Type} (d : Device σ) (config userLabel userPin : String)
    (message : List Byte) (w : World σ) : Nat :=
  (d.X_Sign (sessionHandle d config w) userLabel userPin message (toUint32 (len message))
    (sessionDev d config w)).1.1

/-- The `X_AsymmEncrypt` call made by `AsymmetricEncrypt`: it carries no handle. -/
def encryptCall (plainText : List Byte) (publicKey : PublicKey) : Call :=
  Call.X_AsymmEncrypt (zhPublicKeyFromSM2 publicKey)
    (toUint32 (len (zhPublicKeyFromSM2 publicKey))) plainText (toUint32 (len plainText))
    (toUint32 (cipherTextLenFromPlain (len plainText)))

/-- Result code of the `X_AsymmEncrypt` call made by `AsymmetricEncrypt` once the
session is open. -/
def encryptCode {σ : Type} (d : Device σ) (config : String) (plainText : List Byte)
    (publicKey : PublicKey) (w : World σ) : Nat :=
  (d.X_AsymmEncrypt (zhPublicKeyFromSM2 publicKey)
    (toUint32 (len (zhPublicKeyFromSM2 publicKey))) plainText (toUint32 (len plainText))
    (toUint32 (cipherTextLenFromPlain (len plainText))) (sessionDev d config w)).1.1

/-- Result code of the `X_AsymmDecrypt` call made by `AsymmetricDecrypt` once the
session is open. -/
def decryptCode {σ : Type} (d : Device σ) (config userLabel userPin : String)
    (cipherText : List Byte) (w : World σ) : Nat :=
  (d.X_AsymmDecrypt (sessionHandle d config w) userLabel userPin cipherText
    (toUint32 (len cipherText)) (toUint32 (plainTextLenFromCipher (len cipherText)))
    (sessionDev d config w)).1.1

/-! ## Concrete inputs -/

/-- A 64-byte device key none of whose halves starts with a zero byte (the base
point of the SM2 curve). -/
def keyA : List Byte :=
  [0x32, 0xC4, 0xAE, 0x2C, 0x1F, 0x19, 0x81, 0x19, 0x5F, 0x99, 0x04, 0x46, 0x6A, 0x39, 0xC9, 0x94,
   0x8F, 0xE3, 0x0B, 0xBF, 0xF2, 0x66, 0x0B, 0xE1, 0x71, 0x5A, 0x45, 0x89, 0x33, 0x4C, 0x74, 0xC7,
   0xBC, 0x37, 0x36, 0xA2, 0xF4, 0xF6, 0x77, 0x9C, 0x59, 0xBD, 0xCE, 0xE3, 0x6B, 0x69, 0x21, 0x53,
   0xD0, 0xA9, 0x87, 0x7C, 0xC6, 0x2A, 0x47, 0x40, 0x02, 0xDF, 0x32, 0xE5, 0x21, 0x39, 0xF0, 0xA0]

/-- A 64-byte device key whose X half starts with a zero byte. -/
def keyZ : List Byte :=
  [0x00, 0x32, 0xC4, 0xAE, 0x2C, 0x1F, 0x19, 0x81, 0x19, 0x5F, 0x99, 0x04, 0x46, 0x6A, 0x39, 0xC9,
   0x94, 0x8F, 0xE3, 0x0B, 0xBF, 0xF2, 0x66, 0x0B, 0xE1, 0x71, 0x5A, 0x45, 0x89, 0x33, 0x4C, 0x75,
   0x18, 0x43, 0x43, 0x8B, 0x1F, 0xDC, 0x15, 0xF2, 0xD2, 0xAF, 0x77, 0x62, 0x05, 0x91, 0x9F, 0x9E,
   0x2F, 0xA8, 0xDF, 0xE4, 0x22, 0xF6, 0xB8, 0xC0, 0x8C, 0x04, 0x80, 0xE6, 0x20, 0xD4, 0x59, 0x3C]

/-- The curve equation `y² = x³ + a·x + b (mod p)` with the parameters of the SM2
recommended curve, the curve `sm2.P256Sm2()` stands for; the `sm2` package is an
external dependency of the adapter. -/
def onCurveP256Sm2 (X Y : Nat) : Bool :=
  let p := 0xFFFFFFFEFFFFFFFFFFFFFFFFFFFFFFFFFFFFFFFF00000000FFFFFFFFFFFFFFFF
  let a := 0xFFFFFFFEFFFFFFFFFFFFFFFFFFFFFFFFFFFFFFFF00000000FFFFFFFFFFFFFFFC
  let b := 0x28E9FA9E9D9F5E344D5A9E4BCF6509A7F39789F515AB8F92DDBCBD414D940E93
  decide (X < p) && decide (Y < p) && decide ((Y * Y) % p = (X * X * X + a * X + b) % p)

/-- Sample values for the two result codes the adapter tests. -/
def sampleCodes : XDef := { ERR_SUCCESS := 0, ERR_VERIFY_FAILED := 1 }

/-- A stateless sample device: `X_Initialize` returns `initCode` and the handle `7`,
every other primitive returns `opCode`; key outputs are `keyA`. -/
def sampleDevice (initCode opCode : Nat) : Device Unit :=
  { X_Initialize := fun _ s => ((initCode, 7), s)
    X_Finalize := fun _ s => s
    X_GetVersion := fun s => ((opCode, 1), s)
    X_GenKey := fun _ _ _ s => ((opCode, keyA), s)
    X_DelKey := fun _ _ s => (opCode, s)
    X_GetPublicKey := fun _ _ s => ((opCode, keyA), s)
    X_Sign := fun _ _ _ _ _ s => ((opCode, [0x30, 0x01]), s)
    X_Verify := fun _ _ _ _ _ _ s => (opCode, s)
    X_AsymmEncrypt := fun _ _ _ _ _ s => ((opCode, [0x04]), s)
    X_AsymmDecrypt := fun _ _ _ _ _ _ s => ((opCode, [0x68]), s) }

/-- The initial world of the sample device: no call made yet. -/
def w0 : World Unit := { dev := (), trace := [] }

/-- The public key decoded from `keyA`. -/
def pubA : PublicKey :=
  { Curve := Curve.P256Sm2
    X := (SetBytes (keyA.take 32) : Nat)
    Y := (SetBytes (keyA.drop 32) : Nat) }

/-- A two-byte plaintext. -/
def sampleText : List Byte := [0x68, 0x69]

/-- A ciphertext of 99 bytes: the overhead 97 plus two. -/
def sampleCipher : List Byte := List.replicate 99 0x5A

/-! ## Key codec: properties of the big-endian conversions -/

theorem SetBytes_append_singleton (bs : List Byte) (b : Byte) :
    SetBytes (bs ++ [b]) = SetBytes bs * 256 + b.val := by
  simp [SetBytes, List.foldl_append]

theorem natBytes_fuel (fuel : Nat) : ∀ n fuel2, n ≤ fuel → n ≤ fuel2 →
    natBytes fuel n = natBytes fuel2 n := by
  induction fuel with
  | zero =>
    intro n fuel2 h1 _
    have hn : n = 0 := by omega
    subst hn
    cases fuel2 <;> simp [natBytes]
  | succ k ih =>
    intro n fuel2 h1 h2
    cases fuel2 with
    | zero =>
      have hn : n = 0 := by omega
      subst hn
      simp [natBytes]
    | succ j =>
      simp only [natBytes]
      by_cases hn : n = 0
      · simp [hn]
      · simp only [hn, if_false]
        have hd : n / 256 < n := Nat.div_lt_self (Nat.pos_of_ne_zero hn) (by decide)
        rw [ih (n / 256) j (by omega) (by omega)]

theorem natBytes_zero (fuel : Nat) : natBytes fuel 0 = [] := by
  cases fuel <;> simp [natBytes]

theorem natBytes_step (n : Nat) (hn : n ≠ 0) :
    natBytes n n = natBytes (n / 256) (n / 256) ++ [⟨n % 256, Nat.mod_lt n (by decide)⟩] := by
  obtain ⟨k, rfl⟩ := Nat.exists_eq_succ_of_ne_zero hn
  have hd : (k + 1) / 256 < k + 1 := Nat.div_lt_self (Nat.succ_pos k) (by decide)
  conv_lhs => rw [natBytes]
  simp only [Nat.succ_ne_zero, if_false]
  rw [natBytes_fuel k ((k + 1) / 256) ((k + 1) / 256) (by omega) (le_refl _)]

theorem SetBytes_eq_zero_iff (bs : List Byte) : SetBytes bs = 0 ↔ ∀ b ∈ bs, b = 0 := by
  induction bs using List.reverseRecOn with
  | nil => simp [SetBytes]
  | append_singleton bs b ih =>
    rw [SetBytes_append_singleton]
    constructor
    · intro h
      have h1 : SetBytes bs = 0 := by omega
      have h2 : b.val = 0 := by omega
      intro c hc
      rcases List.mem_append.mp hc with hc | hc
      · exact ih.mp h1 c hc
      · simp at hc
        subst hc
        exact Fin.ext h2
    · intro h
      have h1 : SetBytes bs = 0 := ih.mpr (fun c hc => h c (List.mem_append_left _ hc))
      have h2 : b = 0 := h b (by simp)
      simp [h1, h2]

theorem dropWhile_zero_all (bs : List Byte) (h : ∀ b ∈ bs, b = 0) :
    bs.dropWhile (fun b => decide (b = 0)) = [] := by
  induction bs with
  | nil => rfl
  | cons a t ih =>
    have ha : a = 0 := h a (by simp)
    simp [List.dropWhile, ha]
    exact fun b hb => h b (List.mem_cons_of_mem _ hb)

theorem dropWhile_zero_append (bs : List Byte) (b : Byte) (h : ¬ ∀ c ∈ bs, c = 0) :
    (bs ++ [b]).dropWhile (fun c => decide (c = 0)) =
      bs.dropWhile (fun c => decide (c = 0)) ++ [b] := by
  induction bs with
  | nil => simp at h
  | cons a t ih =>
    by_cases ha : a = 0
    · have ht : ¬ ∀ c ∈ t, c = 0 := by
        intro hall
        apply h
        intro c hc
        rcases List.mem_cons.mp hc with hc | hc
        · rw [hc]; exact ha
        · exact hall c hc
      simp [List.dropWhile, ha]
      exact ih ht
    · simp [List.dropWhile, ha]

/-- Re-encoding the value of a byte string drops exactly its leading zero bytes. -/
theorem natBytes_SetBytes (bs : List Byte) :
    natBytes (SetBytes bs) (SetBytes bs) = bs.dropWhile (fun b => decide (b = 0)) := by
  induction bs using List.reverseRecOn with
  | nil => simp [SetBytes, natBytes]
  | append_singleton bs b ih =>
    rw [SetBytes_append_singleton]
    by_cases hz : SetBytes bs * 256 + b.val = 0
    · have h1 : SetBytes bs = 0 := by omega
      have h2 : b.val = 0 := by omega
      rw [hz, natBytes_zero]
      symm
      apply dropWhile_zero_all
      intro c hc
      rcases List.mem_append.mp hc with hc | hc
      · exact (SetBytes_eq_zero_iff bs).mp h1 c hc
      · simp at hc
        subst hc
        exact Fin.ext h2
    · rw [natBytes_step _ hz]
      have hdiv : (SetBytes bs * 256 + b.val) / 256 = SetBytes bs := by
        have := b.isLt
        omega
      have hmod : (SetBytes bs * 256 + b.val) % 256 = b.val := by
        have := b.isLt
        omega
      have hb : (⟨(SetBytes bs * 256 + b.val) % 256, Nat.mod_lt _ (by decide)⟩ : Byte) = b :=
        Fin.ext hmod
      rw [hb, hdiv, ih]
      by_cases hall : ∀ c ∈ bs, c = 0
      · have h1 : SetBytes bs = 0 := (SetBytes_eq_zero_iff bs).mpr hall
        have hbne : b ≠ 0 := by
          intro hb0
          apply hz
          simp [h1, hb0]
        rw [dropWhile_zero_all bs hall]
        have : (bs ++ [b]).dropWhile (fun c => decide (c = 0)) = [b] := by
          clear ih hz hdiv hmod hb h1
          induction bs with
          | nil => simp [List.dropWhile, hbne]
          | cons a t iht =>
            have ha : a = 0 := hall a (by simp)
            simp [List.dropWhile, ha]
            exact iht (fun c hc => hall c (List.mem_cons_of_mem _ hc))
        rw [this]; rfl
      · rw [dropWhile_zero_append bs b hall]

theorem Bytes_SetBytes (bs : List Byte) :
    Bytes ((SetBytes bs : Nat) : Int) = bs.dropWhile (fun b => decide (b = 0)) := by
  simp [Bytes, natBytes_SetBytes]

theorem SetBytes_eq_beValue (bs : List Byte) : SetBytes bs = beValue bs := by
  induction bs using List.reverseRecOn with
  | nil => rfl
  | append_singleton bs b ih =>
    rw [SetBytes_append_singleton, ih]
    clear ih
    induction bs with
    | nil => simp [beValue]
    | cons a t iht =>
      have e : beValue (a :: t ++ [b]) =
          a.val * 256 ^ (t ++ [b]).length + beValue (t ++ [b]) := rfl
      have e2 : beValue (a :: t) = a.val * 256 ^ t.length + beValue t := rfl
      rw [e, e2, ← iht, List.length_append, List.length_singleton]
      ring


theorem dropWhile_zero_length_le (l : List Byte) :
    (l.dropWhile (fun b => decide (b = 0))).length ≤ l.length := by
  induction l with
  | nil => simp
  | cons a t ih =>
    by_cases ha : a = 0
    · simp [List.dropWhile, ha]
      omega
    · simp [List.dropWhile, ha]

theorem dropWhile_zero_of_head_ne (l : List Byte) (h : l.getD 0 0 ≠ 0) :
    l.dropWhile (fun b => decide (b = 0)) = l := by
  cases l with
  | nil => rfl
  | cons a t =>
    have ha : a ≠ 0 := by simpa using h
    simp [List.dropWhile, ha]

theorem dropWhile_zero_length_lt (l : List Byte) (hl : l ≠ []) (h : l.getD 0 0 = 0) :
    (l.dropWhile (fun b => decide (b = 0))).length < l.length := by
  cases l with
  | nil => exact absurd rfl hl
  | cons a t =>
    have ha : a = 0 := by simpa using h
    have := dropWhile_zero_length_le t
    simp [List.dropWhile, ha]
    omega

theorem getD_take_zero (K : List Byte) (h : K.length = 64) :
    (K.take 32).getD 0 0 = K.getD 0 0 := by
  cases K with
  | nil => simp at h
  | cons a t => simp

theorem getD_drop_zero (K : List Byte) : (K.drop 32).getD 0 0 = K.getD 32 0 := by
  simp [List.getElem?_drop]

/-- The re-encoding of the decoded halves of a 64-byte key. -/
theorem reencode_eq (K : List Byte) :
    zhPublicKeyFromSM2
        { Curve := Curve.P256Sm2
          X := (SetBytes (K.take (PubKeyLen / 2)) : Nat)
          Y := (SetBytes (K.drop (PubKeyLen / 2)) : Nat) } =
      (K.take 32).dropWhile (fun b => decide (b = 0)) ++
        (K.drop 32).dropWhile (fun b => decide (b = 0)) := by
  simp only [zhPublicKeyFromSM2, Bytes_SetBytes]
  rfl

theorem reencode_length_lt (K : List Byte) (h : K.length = 64)
    (hz : K.getD 0 0 = 0 ∨ K.getD 32 0 = 0) :
    ((K.take 32).dropWhile (fun b => decide (b = 0)) ++
        (K.drop 32).dropWhile (fun b => decide (b = 0))).length < 64 := by
  have hA : (K.take 32).length = 32 := by simp [h]
  have hB : (K.drop 32).length = 32 := by simp [h]
  have hA0 : K.take 32 ≠ [] := by
    intro e; rw [e] at hA; simp at hA
  have hB0 : K.drop 32 ≠ [] := by
    intro e; rw [e] at hB; simp at hB
  have lA := dropWhile_zero_length_le (K.take 32)
  have lB := dropWhile_zero_length_le (K.drop 32)
  rw [List.length_append]
  rcases hz with hz | hz
  · have := dropWhile_zero_length_lt (K.take 32) hA0 (by rw [getD_take_zero K h]; exact hz)
    omega
  · have := dropWhile_zero_length_lt (K.drop 32) hB0 (by rw [getD_drop_zero]; exact hz)
    omega

theorem reencode_eq_self_iff (K : List Byte) (h : K.length = 64) :
    (K.take 32).dropWhile (fun b => decide (b = 0)) ++
        (K.drop 32).dropWhile (fun b => decide (b = 0)) = K ↔
      K.getD 0 0 ≠ 0 ∧ K.getD 32 0 ≠ 0 := by
  constructor
  · intro e
    by_contra hne
    have hz : K.getD 0 0 = 0 ∨ K.getD 32 0 = 0 := by
      by_cases h0 : K.getD 0 0 = 0
      · exact Or.inl h0
      · by_cases h1 : K.getD 32 0 = 0
        · exact Or.inr h1
        · exact absurd ⟨h0, h1⟩ hne
    have hlt := reencode_length_lt K h hz
    rw [e, h] at hlt
    exact absurd hlt (by decide)
  · rintro ⟨h0, h1⟩
    rw [dropWhile_zero_of_head_ne _ (by rw [getD_take_zero K h]; exact h0),
      dropWhile_zero_of_head_ne _ (by rw [getD_drop_zero]; exact h1)]
    exact List.take_append_drop 32 K

/-- What `sm2PublicKeyFromZH` returns on each kind of input. -/
theorem sm2PublicKeyFromZH_cases (K : List Byte) :
    (K.length ≠ 64 ∧ sm2PublicKeyFromZH K = (none, some (errKeyLength K.length))) ∨
    (K.length = 64 ∧ (K.getD 0 0 = 0 ∨ K.getD 32 0 = 0) ∧
      sm2PublicKeyFromZH K = (none, some errTransform)) ∨
    (K.length = 64 ∧ K.getD 0 0 ≠ 0 ∧ K.getD 32 0 ≠ 0 ∧
      sm2PublicKeyFromZH K =
        (some { Curve := Curve.P256Sm2
                X := (SetBytes (K.take 32) : Nat)
                Y := (SetBytes (K.drop 32) : Nat) }, none)) := by
  by_cases h : K.length = 64
  · have hiff := reencode_eq_self_iff K h
    have hre := reencode_eq K
    by_cases hk : K.getD 0 0 ≠ 0 ∧ K.getD 32 0 ≠ 0
    · right; right
      refine ⟨h, hk.1, hk.2, ?_⟩
      have e := hiff.mpr hk
      unfold sm2PublicKeyFromZH
      rw [if_neg (by simp [h, PubKeyLen])]
      simp only
      rw [hre, if_neg (by simp [e])]
      rfl
    · right; left
      have hz : K.getD 0 0 = 0 ∨ K.getD 32 0 = 0 := by
        by_cases h0 : K.getD 0 0 = 0
        · exact Or.inl h0
        · by_cases h1 : K.getD 32 0 = 0
          · exact Or.inr h1
          · exact absurd ⟨h0, h1⟩ hk
      refine ⟨h, hz, ?_⟩
      have e : ¬ _ := fun e => hk (hiff.mp e)
      unfold sm2PublicKeyFromZH
      rw [if_neg (by simp [h, PubKeyLen])]
      simp only
      rw [hre, if_pos e]
  · left
    refine ⟨h, ?_⟩
    unfold sm2PublicKeyFromZH
    rw [if_pos (by simpa [PubKeyLen] using h)]
/-! ## Claims: key codec -/

/-- C1 (evaluation at the failing input): `keyZ` is a 64-byte device key, the point
it encodes satisfies the SM2 curve equation, and `sm2PublicKeyFromZH keyZ` returns no
key but the transform error, the re-encoding of its two halves having 63 bytes. -/
theorem sm2PublicKeyFromZH_keyZ_rejected :
    keyZ.length = 64 ∧
    onCurveP256Sm2 (SetBytes (keyZ.take 32)) (SetBytes (keyZ.drop 32)) = true ∧
    sm2PublicKeyFromZH keyZ = (none, some errTransform) ∧
    (zhPublicKeyFromSM2
      { Curve := Curve.P256Sm2
        X := (SetBytes (keyZ.take 32) : Nat)
        Y := (SetBytes (keyZ.drop 32) : Nat) }).length = 63 := by
  refine ⟨by decide, by decide, by decide, by decide⟩

/-- C2: a byte sequence whose length is not 64 is rejected with the key-length
error, and no key is returned. -/
theorem sm2PublicKeyFromZH_bad_length (K : List Byte) (h : K.length ≠ 64) :
    sm2PublicKeyFromZH K =
      (none, some ("public key length must be 64, actual: " ++ toString K.length)) := by
  rcases sm2PublicKeyFromZH_cases K with ⟨_, e⟩ | ⟨h1, _⟩ | ⟨h1, _⟩
  · rw [e]; rfl
  · exact absurd h1 h
  · exact absurd h1 h

theorem sm2PublicKeyFromZH_bad_length_witness :
    sm2PublicKeyFromZH [1, 2, 3] =
      (none, some ("public key length must be 64, actual: " ++ toString [(1 : Byte), 2, 3].length)) :=
  sm2PublicKeyFromZH_bad_length [1, 2, 3] (by decide)

/-- C3: a key returned by `sm2PublicKeyFromZH K` is bound to the SM2 P-256 curve, its
`X` is the big-endian value of the first 32 bytes of `K` and its `Y` the big-endian
value of the 32 bytes that follow, `K` having 64 bytes. -/
theorem sm2PublicKeyFromZH_coordinates (K : List Byte) (P : PublicKey)
    (h : (sm2PublicKeyFromZH K).1 = some P) :
    K.length = 64 ∧ P.Curve = Curve.P256Sm2 ∧
      P.X = (beValue (K.take 32) : Nat) ∧ P.Y = (beValue ((K.drop 32).take 32) : Nat) := by
  rcases sm2PublicKeyFromZH_cases K with ⟨_, e⟩ | ⟨_, _, e⟩ | ⟨h1, _, _, e⟩
  · rw [e] at h; simp at h
  · rw [e] at h; simp at h
  · rw [e] at h
    simp only [Option.some.injEq] at h
    subst h
    have ht : (K.drop 32).take 32 = K.drop 32 := by
      apply List.take_of_length_le
      simp [h1]
    refine ⟨h1, rfl, ?_, ?_⟩
    · simp [SetBytes_eq_beValue]
    · simp [SetBytes_eq_beValue, ht]

theorem sm2PublicKeyFromZH_coordinates_witness :
    keyA.length = 64 ∧ pubA.Curve = Curve.P256Sm2 ∧
      pubA.X = (beValue (keyA.take 32) : Nat) ∧
      pubA.Y = (beValue ((keyA.drop 32).take 32) : Nat) :=
  sm2PublicKeyFromZH_coordinates keyA pubA (by decide)

/-- C10: `sm2PublicKeyFromZH K` returns a key exactly when `K` has 64 bytes and
neither `K[0]` nor `K[32]` is zero; a 64-byte `K` with `K[0] = 0` or `K[32] = 0` is
rejected with the transform error, the re-encoding of its halves by
`zhPublicKeyFromSM2` having fewer than 64 bytes. -/
theorem sm2PublicKeyFromZH_accepts_iff (K : List Byte) :
    ((∃ P, sm2PublicKeyFromZH K = (some P, none)) ↔
      K.length = 64 ∧ K.getD 0 0 ≠ 0 ∧ K.getD 32 0 ≠ 0) ∧
    (K.length = 64 → (K.getD 0 0 = 0 ∨ K.getD 32 0 = 0) →
      sm2PublicKeyFromZH K = (none, some errTransform) ∧
      (zhPublicKeyFromSM2
        { Curve := Curve.P256Sm2
          X := (SetBytes (K.take 32) : Nat)
          Y := (SetBytes (K.drop 32) : Nat) }).length < 64) := by
  constructor
  · constructor
    · rintro ⟨P, hP⟩
      rcases sm2PublicKeyFromZH_cases K with ⟨_, e⟩ | ⟨_, _, e⟩ | ⟨h1, h2, h3, _⟩
      · rw [e] at hP; simp at hP
      · rw [e] at hP; simp at hP
      · exact ⟨h1, h2, h3⟩
    · rintro ⟨h1, h2, h3⟩
      rcases sm2PublicKeyFromZH_cases K with ⟨h, _⟩ | ⟨_, hz, _⟩ | ⟨_, _, _, e⟩
      · exact absurd h1 h
      · rcases hz with hz | hz
        · exact absurd hz h2
        · exact absurd hz h3
      · exact ⟨_, e⟩
  · intro h1 hz
    constructor
    · rcases sm2PublicKeyFromZH_cases K with ⟨h, _⟩ | ⟨_, _, e⟩ | ⟨_, h2, h3, _⟩
      · exact absurd h1 h
      · exact e
      · rcases hz with hz | hz
        · exact absurd hz h2
        · exact absurd hz h3
    · have e := reencode_eq K
      have e2 : (PubKeyLen / 2) = 32 := rfl
      rw [e2] at e
      rw [e]
      exact reencode_length_lt K h1 hz

theorem sm2PublicKeyFromZH_accepts_iff_witness :
    (∃ P, sm2PublicKeyFromZH keyA = (some P, none)) ∧
    sm2PublicKeyFromZH keyZ = (none, some errTransform) ∧
    (zhPublicKeyFromSM2
      { Curve := Curve.P256Sm2
        X := (SetBytes (keyZ.take 32) : Nat)
        Y := (SetBytes (keyZ.drop 32) : Nat) }).length < 64 :=
  ⟨(sm2PublicKeyFromZH_accepts_iff keyA).1.mpr ⟨by decide, by decide, by decide⟩,
    (sm2PublicKeyFromZH_accepts_iff keyZ).2 (by decide) (Or.inl (by decide))⟩

/-! ## Claims: length framer -/

/-- C4: for every plaintext length `n ≥ 0` of a Go `int`,
`plainTextLenFromCipher (cipherTextLenFromPlain n) = n`; both functions add and
subtract the one constant `LenCipherMoreThanPlain = 97`. -/
theorem framing_round_trip (n : Int) (h0 : 0 ≤ n) (h1 : n < 2 ^ 63) :
    plainTextLenFromCipher (cipherTextLenFromPlain n) = n ∧
      cipherTextLenFromPlain n = wrapInt64 (n + LenCipherMoreThanPlain) ∧
      plainTextLenFromCipher (cipherTextLenFromPlain n) =
        wrapInt64 (cipherTextLenFromPlain n - LenCipherMoreThanPlain) ∧
      LenCipherMoreThanPlain = 97 := by
  refine ⟨?_, rfl, rfl, rfl⟩
  unfold plainTextLenFromCipher cipherTextLenFromPlain wrapInt64 LenCipherMoreThanPlain
  omega

theorem framing_round_trip_witness :
    plainTextLenFromCipher (cipherTextLenFromPlain 10) = 10 ∧
      cipherTextLenFromPlain 10 = wrapInt64 (10 + LenCipherMoreThanPlain) ∧
      plainTextLenFromCipher (cipherTextLenFromPlain 10) =
        wrapInt64 (cipherTextLenFromPlain 10 - LenCipherMoreThanPlain) ∧
      LenCipherMoreThanPlain = 97 :=
  framing_round_trip 10 (by decide) (by decide)

/-- C5 (counterexample): for the cipher length 50, below the overhead 97,
`plainTextLenFromCipher` returns the negative length `-47`. -/
theorem plainTextLenFromCipher_50_negative :
    (0 : Int) ≤ 50 ∧ (50 : Int) < 97 ∧
      plainTextLenFromCipher 50 = -47 ∧ plainTextLenFromCipher 50 < 0 := by
  decide

/-- C5 (amended): `plainTextLenFromCipher` is the subtraction of the overhead with no
error outcome: for `0 ≤ n < 97` it returns the negative number `n - 97`. -/
theorem plainTextLenFromCipher_below_overhead (n : Int) (h0 : 0 ≤ n) (h1 : n < 97) :
    plainTextLenFromCipher n = n - 97 ∧ plainTextLenFromCipher n < 0 := by
  unfold plainTextLenFromCipher wrapInt64 LenCipherMoreThanPlain
  omega

theorem plainTextLenFromCipher_below_overhead_witness :
    plainTextLenFromCipher 96 = 96 - 97 ∧ plainTextLenFromCipher 96 < 0 :=
  plainTextLenFromCipher_below_overhead 96 (by decide) (by decide)

/-! ## Session pairing of each operation -/

theorem GenerateKey_paired {σ : Type} (x : XDef) (d : Device σ)
    (config userLabel userPin : String) (w : World σ) :
    SessionPaired x d config w (fun h => Call.X_GenKey h userLabel userPin)
      (none, some "X_Initialize Error") (GenerateKey x d config userLabel userPin w) := by
  unfold SessionPaired sessionCode sessionHandle GenerateKey initSession deferred finalize
  constructor
  · intro h
    simp [h]
  · intro h
    simp only [h, ne_eq, not_true_eq_false, if_false]
    constructor <;> split_ifs <;> simp

theorem DeleteKey_paired {σ : Type} (x : XDef) (d : Device σ)
    (config userLabel : String) (w : World σ) :
    SessionPaired x d config w (fun h => Call.X_DelKey h userLabel)
      (some "X_Initialize Error") (DeleteKey x d config userLabel w) := by
  unfold SessionPaired sessionCode sessionHandle DeleteKey initSession deferred finalize
  constructor
  · intro h
    simp [h]
  · intro h
    simp only [h, ne_eq, not_true_eq_false, if_false]
    constructor <;> split_ifs <;> simp

theorem GetPublicKey_paired {σ : Type} (x : XDef) (d : Device σ)
    (config userLabel : String) (w : World σ) :
    SessionPaired x d config w (fun h => Call.X_GetPublicKey h userLabel)
      (none, some "X_Initialize Error") (GetPublicKey x d config userLabel w) := by
  unfold SessionPaired sessionCode sessionHandle GetPublicKey initSession deferred finalize
  constructor
  · intro h
    simp [h]
  · intro h
    simp only [h, ne_eq, not_true_eq_false, if_false]
    constructor <;> split_ifs <;> simp

theorem Sign_paired {σ : Type} (x : XDef) (d : Device σ)
    (config userLabel userPin : String) (message : List Byte) (w : World σ) :
    SessionPaired x d config w
      (fun h => Call.X_Sign h userLabel userPin message (toUint32 (len message)))
      (none, some "X_Initialize Error") (Sign x d config userLabel userPin message w) := by
  unfold SessionPaired sessionCode sessionHandle Sign initSession deferred finalize
  constructor
  · intro h
    simp [h]
  · intro h
    simp only [h, ne_eq, not_true_eq_false, if_false]
    constructor <;> split_ifs <;> simp

theorem Verify_paired {σ : Type} (x : XDef) (d : Device σ) (config : String)
    (message signature : List Byte) (publicKey : PublicKey) (w : World σ) :
    SessionPaired x d config w
      (fun _ => Call.X_Verify message (toUint32 (len message)) (zhPublicKeyFromSM2 publicKey)
        (toUint32 (len (zhPublicKeyFromSM2 publicKey))) signature (toUint32 (len signature)))
      (false, some "X_Initialize Error") (Verify x d config message signature publicKey w) := by
  unfold SessionPaired sessionCode sessionHandle
  constructor
  · intro h
    unfold Verify initSession
    simp only [h, ne_eq, not_false_eq_true, if_true, and_self]
  · intro h
    unfold Verify initSession
    simp only [h]
    simp only [ne_eq, not_true_eq_false, if_false]
    by_cases h1 : message = []
    · simp only [h1, if_true]
      simp [deferred, finalize]
    · simp only [h1, if_false]
      by_cases h2 : zhPublicKeyFromSM2 publicKey = []
      · simp only [h2, if_true]
        simp [deferred, finalize]
      · simp only [h2, if_false]
        by_cases h3 : signature = []
        · simp only [h3, if_true]
          simp [deferred, finalize]
        · simp only [h3, if_false]
          simp only [deferred]
          constructor <;> split_ifs <;> simp [finalize]

theorem AsymmetricEncrypt_paired {σ : Type} (x : XDef) (d : Device σ) (config : String)
    (plainText : List Byte) (publicKey : PublicKey) (w : World σ) :
    SessionPaired x d config w (fun _ => encryptCall plainText publicKey)
      (none, some "X_Initialize Error")
      (AsymmetricEncrypt x d config plainText publicKey w) := by
  unfold SessionPaired sessionCode sessionHandle
  constructor
  · intro h
    unfold AsymmetricEncrypt initSession
    simp only [h, ne_eq, not_false_eq_true, if_true, and_self]
  · intro h
    unfold AsymmetricEncrypt initSession
    simp only [h]
    simp only [ne_eq, not_true_eq_false, if_false]
    by_cases h1 : cipherTextLenFromPlain (len plainText) < 0
    · simp only [h1, if_true]
      simp [deferred, finalize]
    · simp only [h1, if_false]
      by_cases h2 : zhPublicKeyFromSM2 publicKey = []
      · simp only [h2, if_true]
        simp [deferred, finalize]
      · simp only [h2, if_false]
        by_cases h3 : plainText = []
        · simp only [h3, if_true]
          simp [deferred, finalize]
        · simp only [h3, if_false]
          by_cases h4 : cipherTextLenFromPlain (len plainText) = 0
          · simp only [h4, if_true]
            simp [deferred, finalize]
          · simp only [h4, if_false]
            simp only [deferred]
            constructor <;> split_ifs <;> simp [finalize, encryptCall]

theorem AsymmetricDecrypt_paired {σ : Type} (x : XDef) (d : Device σ)
    (config userLabel userPin : String) (cipherText : List Byte) (w : World σ) :
    SessionPaired x d config w
      (fun h => Call.X_AsymmDecrypt h userLabel userPin cipherText (toUint32 (len cipherText))
        (toUint32 (plainTextLenFromCipher (len cipherText))))
      (none, some "X_Initialize Error")
      (AsymmetricDecrypt x d config userLabel userPin cipherText w) := by
  unfold SessionPaired sessionCode sessionHandle
  constructor
  · intro h
    unfold AsymmetricDecrypt initSession
    simp only [h, ne_eq, not_false_eq_true, if_true, and_self]
  · intro h
    unfold AsymmetricDecrypt initSession
    simp only [h]
    simp only [ne_eq, not_true_eq_false, if_false]
    by_cases h1 : plainTextLenFromCipher (len cipherText) < 0
    · simp only [h1, if_true]
      simp [deferred, finalize]
    · simp only [h1, if_false]
      by_cases h2 : cipherText = []
      · simp only [h2, if_true]
        simp [deferred, finalize]
      · simp only [h2, if_false]
        by_cases h3 : plainTextLenFromCipher (len cipherText) = 0
        · simp only [h3, if_true]
          simp [deferred, finalize]
        · simp only [h3, if_false]
          simp only [deferred]
          constructor <;> split_ifs <;> simp [finalize]

/-! ## Length guards -/

theorem cipherTextLen_pos (plainText : List Byte) (h : plainText.length + 97 < 2 ^ 63) :
    ¬ cipherTextLenFromPlain (len plainText) < 0 ∧
      ¬ cipherTextLenFromPlain (len plainText) = 0 := by
  unfold cipherTextLenFromPlain wrapInt64 LenCipherMoreThanPlain len
  omega

theorem plainTextLen_pos (cipherText : List Byte) (h0 : 97 < cipherText.length)
    (h1 : cipherText.length < 2 ^ 63) :
    ¬ plainTextLenFromCipher (len cipherText) < 0 ∧
      ¬ plainTextLenFromCipher (len cipherText) = 0 := by
  unfold plainTextLenFromCipher wrapInt64 LenCipherMoreThanPlain len
  omega

/-! ## Outcome on a result code other than `ERR_SUCCESS` -/

theorem GenerateKey_error {σ : Type} (x : XDef) (d : Device σ)
    (config userLabel userPin : String) (w : World σ)
    (hinit : sessionCode d config w = x.ERR_SUCCESS)
    (hc : genKeyCode d config userLabel userPin w ≠ x.ERR_SUCCESS) :
    (GenerateKey x d config userLabel userPin w).1 =
      Outcome.ret (none, some "X_GenKey Error") := by
  unfold sessionCode at hinit
  unfold genKeyCode sessionHandle sessionDev at hc
  simp [GenerateKey, initSession, deferred, hinit, hc]

theorem DeleteKey_error {σ : Type} (x : XDef) (d : Device σ)
    (config userLabel : String) (w : World σ)
    (hinit : sessionCode d config w = x.ERR_SUCCESS)
    (hc : delKeyCode d config userLabel w ≠ x.ERR_SUCCESS) :
    (DeleteKey x d config userLabel w).1 = Outcome.ret (some "X_DelKey Error") := by
  unfold sessionCode at hinit
  unfold delKeyCode sessionHandle sessionDev at hc
  simp [DeleteKey, initSession, deferred, hinit, hc]

theorem GetPublicKey_error {σ : Type} (x : XDef) (d : Device σ)
    (config userLabel : String) (w : World σ)
    (hinit : sessionCode d config w = x.ERR_SUCCESS)
    (hc : getPublicKeyCode d config userLabel w ≠ x.ERR_SUCCESS) :
    (GetPublicKey x d config userLabel w).1 =
      Outcome.ret (none, some "X_GetPublicKey Error") := by
  unfold sessionCode at hinit
  unfold getPublicKeyCode sessionHandle sessionDev at hc
  simp [GetPublicKey, initSession, deferred, hinit, hc]

theorem Sign_error {σ : Type} (x : XDef) (d : Device σ)
    (config userLabel userPin : String) (message : List Byte) (w : World σ)
    (hinit : sessionCode d config w = x.ERR_SUCCESS) (hm : message ≠ [])
    (hc : signCode d config userLabel userPin message w ≠ x.ERR_SUCCESS) :
    (Sign x d config userLabel userPin message w).1 =
      Outcome.ret (none, some "X_Sign Error") := by
  unfold sessionCode at hinit
  unfold signCode sessionHandle sessionDev at hc
  simp [Sign, initSession, deferred, hinit, hc, hm]

/-- What `AsymmetricEncrypt` returns once the session is open and no slice it
indexes is empty. -/
theorem AsymmetricEncrypt_result {σ : Type} (x : XDef) (d : Device σ) (config : String)
    (plainText : List Byte) (publicKey : PublicKey) (w : World σ)
    (hinit : sessionCode d config w = x.ERR_SUCCESS) (hp : plainText ≠ [])
    (hk : zhPublicKeyFromSM2 publicKey ≠ []) (hl : plainText.length + 97 < 2 ^ 63) :
    (encryptCode d config plainText publicKey w ≠ x.ERR_SUCCESS →
      (AsymmetricEncrypt x d config plainText publicKey w).1 =
        Outcome.ret (none, some "X_AsymmEncrypt Error")) ∧
    (AsymmetricEncrypt x d config plainText publicKey w).1 ≠ Outcome.panic := by
  obtain ⟨h1, h4⟩ := cipherTextLen_pos plainText hl
  unfold sessionCode at hinit
  unfold encryptCode sessionDev AsymmetricEncrypt initSession
  simp only [hinit]
  simp only [ne_eq, not_true_eq_false, if_false, h1, hk, hp, h4]
  constructor
  · intro hc
    simp [deferred, hc]
  · simp only [deferred]
    split_ifs <;> simp

theorem AsymmetricDecrypt_error {σ : Type} (x : XDef) (d : Device σ)
    (config userLabel userPin : String) (cipherText : List Byte) (w : World σ)
    (hinit : sessionCode d config w = x.ERR_SUCCESS) (h0 : 97 < cipherText.length)
    (hl : cipherText.length < 2 ^ 63)
    (hc : decryptCode d config userLabel userPin cipherText w ≠ x.ERR_SUCCESS) :
    (AsymmetricDecrypt x d config userLabel userPin cipherText w).1 =
      Outcome.ret (none, some "X_AsymmDecrypt Error") := by
  obtain ⟨h1, h3⟩ := plainTextLen_pos cipherText h0 hl
  have h2 : cipherText ≠ [] := by
    intro e
    rw [e] at h0
    simp at h0
  unfold sessionCode at hinit
  unfold decryptCode sessionHandle sessionDev at hc
  unfold AsymmetricDecrypt initSession
  simp only [hinit]
  simp only [ne_eq, not_true_eq_false, if_false, h1, h2, h3]
  simp [deferred, hc]

/-- With the session open, `AsymmetricDecrypt` on a ciphertext shorter than the
overhead panics at `make([]byte, palinTextLen)`: the length it computes is negative. -/
theorem AsymmetricDecrypt_short_cipher_panics {σ : Type} (x : XDef) (d : Device σ)
    (config userLabel userPin : String) (cipherText : List Byte) (w : World σ)
    (hinit : sessionCode d config w = x.ERR_SUCCESS) (h : cipherText.length < 97) :
    (AsymmetricDecrypt x d config userLabel userPin cipherText w).1 = Outcome.panic := by
  have h1 : plainTextLenFromCipher (len cipherText) < 0 := by
    unfold plainTextLenFromCipher wrapInt64 LenCipherMoreThanPlain len
    omega
  unfold sessionCode at hinit
  unfold AsymmetricDecrypt initSession
  simp only [hinit]
  simp only [ne_eq, not_true_eq_false, if_false, h1, if_true]
  rfl

/-! ## Claims: result codes and sessions -/

/-- The empty slice is the encoding of zero only. -/
theorem natBytes_eq_nil (n : Nat) (h : natBytes n n = []) : n = 0 := by
  by_contra hn
  rw [natBytes_step n hn] at h
  simp at h

/-- The device encoding of a point of the SM2 curve is not empty: the point with
both coordinates zero is not on the curve. -/
theorem zhPublicKeyFromSM2_ne_nil_of_onCurve (publicKey : PublicKey)
    (h : onCurveP256Sm2 publicKey.X.natAbs publicKey.Y.natAbs = true) :
    zhPublicKeyFromSM2 publicKey ≠ [] := by
  intro e
  unfold zhPublicKeyFromSM2 Bytes at e
  obtain ⟨eX, eY⟩ := List.append_eq_nil.mp e
  rw [natBytes_eq_nil _ eX, natBytes_eq_nil _ eY] at h
  revert h
  decide

/-- The result mapping of `Verify` once the session is open and none of the three
slices it indexes is empty. -/
theorem Verify_mapping_of_nonempty {σ : Type} (x : XDef) (d : Device σ) (config : String)
    (message signature : List Byte) (publicKey : PublicKey) (w : World σ)
    (hne : x.ERR_SUCCESS ≠ x.ERR_VERIFY_FAILED)
    (hm : message ≠ []) (hs : signature ≠ []) (hk : zhPublicKeyFromSM2 publicKey ≠ [])
    (hinit : sessionCode d config w = x.ERR_SUCCESS) :
    (verifyCode d config message signature publicKey w = x.ERR_VERIFY_FAILED →
      (Verify x d config message signature publicKey w).1 = Outcome.ret (false, none)) ∧
    (verifyCode d config message signature publicKey w = x.ERR_SUCCESS →
      (Verify x d config message signature publicKey w).1 = Outcome.ret (true, none)) ∧
    (verifyCode d config message signature publicKey w ≠ x.ERR_VERIFY_FAILED →
      verifyCode d config message signature publicKey w ≠ x.ERR_SUCCESS →
      (Verify x d config message signature publicKey w).1 =
        Outcome.ret (false, some "X_Verify Error")) := by
  unfold sessionCode at hinit
  unfold verifyCode sessionDev Verify initSession deferred finalize
  simp only [hinit, ne_eq, not_true_eq_false, if_false, hm, hs, hk]
  refine ⟨?_, ?_, ?_⟩
  · intro h
    simp [h]
  · intro h
    simp [h, hne]
  · intro h1 h2
    simp [h1, h2]

/-- With the session open, `Verify` panics at `&cPublicKey[0]` (or before, at
`&message[0]`) when the encoded key is empty; `X_Verify` is not called. -/
theorem Verify_panics_of_empty_key {σ : Type} (x : XDef) (d : Device σ) (config : String)
    (message signature : List Byte) (publicKey : PublicKey) (w : World σ)
    (hinit : sessionCode d config w = x.ERR_SUCCESS)
    (hk : zhPublicKeyFromSM2 publicKey = []) :
    (Verify x d config message signature publicKey w).1 = Outcome.panic := by
  unfold sessionCode at hinit
  unfold Verify initSession
  simp only [hinit]
  simp only [ne_eq, not_true_eq_false, if_false, hk, if_true]
  by_cases hm : message = []
  · simp only [hm, if_true]
    rfl
  · simp only [hm, if_false]
    rfl

/-- With the session open, a non-empty message and signature and a key that is a
point of the SM2 curve, `Verify` reaches `X_Verify`: the run does not panic. -/
theorem Verify_reaches_primitive_on_curve {σ : Type} (x : XDef) (d : Device σ)
    (config : String) (message signature : List Byte) (publicKey : PublicKey) (w : World σ)
    (hne : x.ERR_SUCCESS ≠ x.ERR_VERIFY_FAILED)
    (hm : message ≠ []) (hs : signature ≠ [])
    (hinit : sessionCode d config w = x.ERR_SUCCESS)
    (hc : onCurveP256Sm2 publicKey.X.natAbs publicKey.Y.natAbs = true) :
    (Verify x d config message signature publicKey w).1 ≠ Outcome.panic := by
  have hk := zhPublicKeyFromSM2_ne_nil_of_onCurve publicKey hc
  have h := Verify_mapping_of_nonempty x d config message signature publicKey w hne hm hs hk
    hinit
  by_cases h1 : verifyCode d config message signature publicKey w = x.ERR_VERIFY_FAILED
  · rw [h.1 h1]
    simp
  · by_cases h2 : verifyCode d config message signature publicKey w = x.ERR_SUCCESS
    · rw [h.2.1 h2]
      simp
    · rw [h.2.2 h1 h2]
      simp

/-- C6: for every non-empty message, every non-empty signature and every key, once
the session opens and the run reaches the device verify primitive (it does not
panic before the call), `Verify` returns `(false, nil)` when `X_Verify` returns
`ERR_VERIFY_FAILED`, `(true, nil)` when it returns `ERR_SUCCESS`, and
`(false, "X_Verify Error")` for every other code. -/
theorem Verify_result_mapping {σ : Type} (x : XDef) (d : Device σ) (config : String)
    (message signature : List Byte) (publicKey : PublicKey) (w : World σ)
    (hne : x.ERR_SUCCESS ≠ x.ERR_VERIFY_FAILED)
    (hm : message ≠ []) (hs : signature ≠ [])
    (hinit : sessionCode d config w = x.ERR_SUCCESS)
    (hreach : (Verify x d config message signature publicKey w).1 ≠ Outcome.panic) :
    (verifyCode d config message signature publicKey w = x.ERR_VERIFY_FAILED →
      (Verify x d config message signature publicKey w).1 = Outcome.ret (false, none)) ∧
    (verifyCode d config message signature publicKey w = x.ERR_SUCCESS →
      (Verify x d config message signature publicKey w).1 = Outcome.ret (true, none)) ∧
    (verifyCode d config message signature publicKey w ≠ x.ERR_VERIFY_FAILED →
      verifyCode d config message signature publicKey w ≠ x.ERR_SUCCESS →
      (Verify x d config message signature publicKey w).1 =
        Outcome.ret (false, some "X_Verify Error")) := by
  have hk : zhPublicKeyFromSM2 publicKey ≠ [] := by
    intro e
    exact hreach (Verify_panics_of_empty_key x d config message signature publicKey w hinit e)
  exact Verify_mapping_of_nonempty x d config message signature publicKey w hne hm hs hk hinit

theorem Verify_result_mapping_witness :
    (Verify sampleCodes (sampleDevice 0 1) "cfg" [1] [2] pubA w0).1 =
        Outcome.ret (false, none) ∧
    (Verify sampleCodes (sampleDevice 0 0) "cfg" [1] [2] pubA w0).1 =
        Outcome.ret (true, none) ∧
    (Verify sampleCodes (sampleDevice 0 5) "cfg" [1] [2] pubA w0).1 =
        Outcome.ret (false, some "X_Verify Error") :=
  ⟨(Verify_result_mapping sampleCodes (sampleDevice 0 1) "cfg" [1] [2] pubA w0
      (by decide) (by decide) (by decide) (by decide) (by decide)).1 (by decide),
    (Verify_result_mapping sampleCodes (sampleDevice 0 0) "cfg" [1] [2] pubA w0
      (by decide) (by decide) (by decide) (by decide) (by decide)).2.1 (by decide),
    (Verify_result_mapping sampleCodes (sampleDevice 0 5) "cfg" [1] [2] pubA w0
      (by decide) (by decide) (by decide) (by decide) (by decide)).2.2
      (by decide) (by decide)⟩

/-- C7: once the session is open and the device primitive is reached, a result code
equal to `ERR_VERIFY_FAILED`, like every other code that is not `ERR_SUCCESS`, makes
`GenerateKey`, `DeleteKey`, `GetPublicKey`, `Sign`, `AsymmetricEncrypt` and
`AsymmetricDecrypt` return their error and no value, whereas `Verify` returns
`(false, nil)` on `ERR_VERIFY_FAILED`. -/
theorem verify_failed_code_is_error_elsewhere {σ : Type} (x : XDef) (d : Device σ)
    (config userLabel userPin : String) (message signature plainText cipherText : List Byte)
    (publicKey : PublicKey) (w : World σ)
    (hne : x.ERR_VERIFY_FAILED ≠ x.ERR_SUCCESS)
    (hinit : sessionCode d config w = x.ERR_SUCCESS) :
    ((genKeyCode d config userLabel userPin w = x.ERR_VERIFY_FAILED ∨
        genKeyCode d config userLabel userPin w ≠ x.ERR_SUCCESS) →
      (GenerateKey x d config userLabel userPin w).1 =
        Outcome.ret (none, some "X_GenKey Error")) ∧
    ((delKeyCode d config userLabel w = x.ERR_VERIFY_FAILED ∨
        delKeyCode d config userLabel w ≠ x.ERR_SUCCESS) →
      (DeleteKey x d config userLabel w).1 = Outcome.ret (some "X_DelKey Error")) ∧
    ((getPublicKeyCode d config userLabel w = x.ERR_VERIFY_FAILED ∨
        getPublicKeyCode d config userLabel w ≠ x.ERR_SUCCESS) →
      (GetPublicKey x d config userLabel w).1 =
        Outcome.ret (none, some "X_GetPublicKey Error")) ∧
    (message ≠ [] →
      (signCode d config userLabel userPin message w = x.ERR_VERIFY_FAILED ∨
        signCode d config userLabel userPin message w ≠ x.ERR_SUCCESS) →
      (Sign x d config userLabel userPin message w).1 =
        Outcome.ret (none, some "X_Sign Error")) ∧
    (plainText ≠ [] → zhPublicKeyFromSM2 publicKey ≠ [] → plainText.length + 97 < 2 ^ 63 →
      (encryptCode d config plainText publicKey w = x.ERR_VERIFY_FAILED ∨
        encryptCode d config plainText publicKey w ≠ x.ERR_SUCCESS) →
      (AsymmetricEncrypt x d config plainText publicKey w).1 =
        Outcome.ret (none, some "X_AsymmEncrypt Error")) ∧
    (97 < cipherText.length → cipherText.length < 2 ^ 63 →
      (decryptCode d config userLabel userPin cipherText w = x.ERR_VERIFY_FAILED ∨
        decryptCode d config userLabel userPin cipherText w ≠ x.ERR_SUCCESS) →
      (AsymmetricDecrypt x d config userLabel userPin cipherText w).1 =
        Outcome.ret (none, some "X_AsymmDecrypt Error")) ∧
    (message ≠ [] → signature ≠ [] → zhPublicKeyFromSM2 publicKey ≠ [] →
      verifyCode d config message signature publicKey w = x.ERR_VERIFY_FAILED →
      (Verify x d config message signature publicKey w).1 = Outcome.ret (false, none)) := by
  have key : ∀ c : Nat, (c = x.ERR_VERIFY_FAILED ∨ c ≠ x.ERR_SUCCESS) → c ≠ x.ERR_SUCCESS := by
    intro c hc
    rcases hc with hc | hc
    · rw [hc]; exact hne
    · exact hc
  refine ⟨?_, ?_, ?_, ?_, ?_, ?_, ?_⟩
  · intro hc
    exact GenerateKey_error x d config userLabel userPin w hinit (key _ hc)
  · intro hc
    exact DeleteKey_error x d config userLabel w hinit (key _ hc)
  · intro hc
    exact GetPublicKey_error x d config userLabel w hinit (key _ hc)
  · intro hm hc
    exact Sign_error x d config userLabel userPin message w hinit hm (key _ hc)
  · intro hp hk hl hc
    exact (AsymmetricEncrypt_result x d config plainText publicKey w hinit hp hk hl).1 (key _ hc)
  · intro h0 hl hc
    exact AsymmetricDecrypt_error x d config userLabel userPin cipherText w hinit h0 hl (key _ hc)
  · intro hm hs hk hc
    unfold sessionCode at hinit
    unfold verifyCode sessionDev at hc
    unfold Verify initSession
    simp only [hinit]
    simp only [ne_eq, not_true_eq_false, if_false, hm, hs, hk]
    simp [deferred, hc]

theorem verify_failed_code_is_error_elsewhere_witness :
    (GenerateKey sampleCodes (sampleDevice 0 1) "cfg" "alice" "1234" w0).1 =
        Outcome.ret (none, some "X_GenKey Error") ∧
    (DeleteKey sampleCodes (sampleDevice 0 1) "cfg" "alice" w0).1 =
        Outcome.ret (some "X_DelKey Error") ∧
    (GetPublicKey sampleCodes (sampleDevice 0 1) "cfg" "alice" w0).1 =
        Outcome.ret (none, some "X_GetPublicKey Error") ∧
    (Sign sampleCodes (sampleDevice 0 1) "cfg" "alice" "1234" [0x68, 0x69] w0).1 =
        Outcome.ret (none, some "X_Sign Error") ∧
    (AsymmetricEncrypt sampleCodes (sampleDevice 0 1) "cfg" sampleText pubA w0).1 =
        Outcome.ret (none, some "X_AsymmEncrypt Error") ∧
    (AsymmetricDecrypt sampleCodes (sampleDevice 0 1) "cfg" "alice" "1234" sampleCipher w0).1 =
        Outcome.ret (none, some "X_AsymmDecrypt Error") ∧
    (Verify sampleCodes (sampleDevice 0 1) "cfg" [0x68, 0x69] [0x30, 0x01] pubA w0).1 =
        Outcome.ret (false, none) :=
  have h := verify_failed_code_is_error_elsewhere sampleCodes (sampleDevice 0 1) "cfg" "alice"
    "1234" [0x68, 0x69] [0x30, 0x01] sampleText sampleCipher pubA w0 (by decide) (by decide)
  ⟨h.1 (Or.inl (by decide)), h.2.1 (Or.inl (by decide)), h.2.2.1 (Or.inl (by decide)),
    h.2.2.2.1 (by decide) (Or.inl (by decide)),
    h.2.2.2.2.1 (by decide) (by decide) (by decide) (Or.inl (by decide)),
    h.2.2.2.2.2.1 (by decide) (by decide) (Or.inl (by decide)),
    h.2.2.2.2.2.2 (by decide) (by decide) (by decide) (by decide)⟩

/-- C8: every run of `GenerateKey`, `DeleteKey`, `GetPublicKey`, `Sign`, `Verify`,
`AsymmetricEncrypt` and `AsymmetricDecrypt` is session-paired: after a successful
`X_Initialize` the trace gains exactly one `X_Finalize` of the handle it returned,
placed after the device primitive and last in the run (also when the run panics
before reaching the primitive); after a failed `X_Initialize` the trace gains no
other call and the initialize error is returned. -/
theorem session_pairing {σ : Type} (x : XDef) (d : Device σ)
    (config userLabel userPin : String) (message signature plainText cipherText : List Byte)
    (publicKey : PublicKey) (w : World σ) :
    SessionPaired x d config w (fun h => Call.X_GenKey h userLabel userPin)
      (none, some "X_Initialize Error") (GenerateKey x d config userLabel userPin w) ∧
    SessionPaired x d config w (fun h => Call.X_DelKey h userLabel)
      (some "X_Initialize Error") (DeleteKey x d config userLabel w) ∧
    SessionPaired x d config w (fun h => Call.X_GetPublicKey h userLabel)
      (none, some "X_Initialize Error") (GetPublicKey x d config userLabel w) ∧
    SessionPaired x d config w
      (fun h => Call.X_Sign h userLabel userPin message (toUint32 (len message)))
      (none, some "X_Initialize Error") (Sign x d config userLabel userPin message w) ∧
    SessionPaired x d config w
      (fun _ => Call.X_Verify message (toUint32 (len message)) (zhPublicKeyFromSM2 publicKey)
        (toUint32 (len (zhPublicKeyFromSM2 publicKey))) signature (toUint32 (len signature)))
      (false, some "X_Initialize Error")
      (Verify x d config message signature publicKey w) ∧
    SessionPaired x d config w (fun _ => encryptCall plainText publicKey)
      (none, some "X_Initialize Error")
      (AsymmetricEncrypt x d config plainText publicKey w) ∧
    SessionPaired x d config w
      (fun h => Call.X_AsymmDecrypt h userLabel userPin cipherText (toUint32 (len cipherText))
        (toUint32 (plainTextLenFromCipher (len cipherText))))
      (none, some "X_Initialize Error")
      (AsymmetricDecrypt x d config userLabel userPin cipherText w) :=
  ⟨GenerateKey_paired x d config userLabel userPin w,
    DeleteKey_paired x d config userLabel w,
    GetPublicKey_paired x d config userLabel w,
    Sign_paired x d config userLabel userPin message w,
    Verify_paired x d config message signature publicKey w,
    AsymmetricEncrypt_paired x d config plainText publicKey w,
    AsymmetricDecrypt_paired x d config userLabel userPin cipherText w⟩

theorem session_pairing_witness :
    (DeleteKey sampleCodes (sampleDevice 0 0) "cfg" "alice" w0).2.trace =
      [Call.X_Initialize "cfg", Call.X_DelKey 7 "alice", Call.X_Finalize 7] ∧
    (DeleteKey sampleCodes (sampleDevice 0 5) "cfg" "alice" w0).2.trace =
      [Call.X_Initialize "cfg", Call.X_DelKey 7 "alice", Call.X_Finalize 7] ∧
    (Sign sampleCodes (sampleDevice 0 0) "cfg" "alice" "1234" [] w0).2.trace =
      [Call.X_Initialize "cfg", Call.X_Finalize 7] ∧
    (DeleteKey sampleCodes (sampleDevice 3 0) "cfg" "alice" w0).2.trace =
      [Call.X_Initialize "cfg"] ∧
    (DeleteKey sampleCodes (sampleDevice 3 0) "cfg" "alice" w0).1 =
      Outcome.ret (some "X_Initialize Error") :=
  ⟨((session_pairing sampleCodes (sampleDevice 0 0) "cfg" "alice" "1234" [] [] [] [] pubA
      w0).2.1.2 (by decide)).1 (by decide),
    ((session_pairing sampleCodes (sampleDevice 0 5) "cfg" "alice" "1234" [] [] [] [] pubA
      w0).2.1.2 (by decide)).1 (by decide),
    ((session_pairing sampleCodes (sampleDevice 0 0) "cfg" "alice" "1234" [] [] [] [] pubA
      w0).2.2.2.1.2 (by decide)).2 (by decide),
    (session_pairing sampleCodes (sampleDevice 3 0) "cfg" "alice" "1234" [] [] [] [] pubA
      w0).2.1.1 (by decide)⟩

/-- C9 (counterexample): `AsymmetricEncrypt` calls `X_Initialize` and `X_Finalize`
around the encryption primitive, and when `X_Initialize` fails it returns the
initialize error although the same device would encrypt. -/
theorem AsymmetricEncrypt_trace_has_session :
    (AsymmetricEncrypt sampleCodes (sampleDevice 0 0) "cfg" sampleText pubA w0).2.trace =
      [Call.X_Initialize "cfg", encryptCall sampleText pubA, Call.X_Finalize 7] ∧
    (AsymmetricEncrypt sampleCodes (sampleDevice 0 0) "cfg" sampleText pubA w0).1 =
      Outcome.ret (some (fillBuffer 99 [0x04]), none) ∧
    (AsymmetricEncrypt sampleCodes (sampleDevice 3 0) "cfg" sampleText pubA w0).2.trace =
      [Call.X_Initialize "cfg"] ∧
    (AsymmetricEncrypt sampleCodes (sampleDevice 3 0) "cfg" sampleText pubA w0).1 =
      Outcome.ret (none, some "X_Initialize Error") := by
  decide

/-- C9 (amended): the encryption primitive takes no session handle, yet
`AsymmetricEncrypt` opens a session first and finalizes it afterwards: when
`X_Initialize` fails the run is that single call and the initialize error is
returned; when it succeeds and the plaintext and the key encoding are non-empty
the run is `X_Initialize`, `X_AsymmEncrypt`, `X_Finalize` of the returned handle. -/
theorem AsymmetricEncrypt_session {σ : Type} (x : XDef) (d : Device σ) (config : String)
    (plainText : List Byte) (publicKey : PublicKey) (w : World σ) :
    (sessionCode d config w ≠ x.ERR_SUCCESS →
      (AsymmetricEncrypt x d config plainText publicKey w).2.trace =
        w.trace ++ [Call.X_Initialize config] ∧
      (AsymmetricEncrypt x d config plainText publicKey w).1 =
        Outcome.ret (none, some "X_Initialize Error")) ∧
    (sessionCode d config w = x.ERR_SUCCESS → plainText ≠ [] →
      zhPublicKeyFromSM2 publicKey ≠ [] → plainText.length + 97 < 2 ^ 63 →
      (AsymmetricEncrypt x d config plainText publicKey w).2.trace =
        w.trace ++
          [Call.X_Initialize config,
            Call.X_AsymmEncrypt (zhPublicKeyFromSM2 publicKey)
              (toUint32 (len (zhPublicKeyFromSM2 publicKey))) plainText
              (toUint32 (len plainText)) (toUint32 (cipherTextLenFromPlain (len plainText))),
            Call.X_Finalize (sessionHandle d config w)]) := by
  have hp := AsymmetricEncrypt_paired x d config plainText publicKey w
  unfold SessionPaired at hp
  refine ⟨hp.1, ?_⟩
  intro hinit hpt hk hl
  exact ((hp.2 hinit).1
    (AsymmetricEncrypt_result x d config plainText publicKey w hinit hpt hk hl).2)

theorem AsymmetricEncrypt_session_witness :
    (AsymmetricEncrypt sampleCodes (sampleDevice 0 0) "cfg" sampleText pubA w0).2.trace =
      w0.trace ++
        [Call.X_Initialize "cfg",
          Call.X_AsymmEncrypt (zhPublicKeyFromSM2 pubA) (toUint32 (len (zhPublicKeyFromSM2 pubA)))
            sampleText (toUint32 (len sampleText))
            (toUint32 (cipherTextLenFromPlain (len sampleText))),
          Call.X_Finalize (sessionHandle (sampleDevice 0 0) "cfg" w0)] :=
  (AsymmetricEncrypt_session sampleCodes (sampleDevice 0 0) "cfg" sampleText pubA w0).2
    (by decide) (by decide) (by decide) (by decide)

end Zhonghuan
